import Mathlib

/-!
Verification of the rule-reconciliation engine of aws-sg-updater.

The repository holds two evolutionary snapshots of the tool in `main.go`.
The first (and most capable one present in the sources) contains the
reconciler `syncSecurityGroupRule`, the locator `findSecurityGroupID` and
the flag validation in `main`; the second snapshot is a stub without the
reconciler.  The definitions below are a shallow embedding of that first
snapshot.

Modelling conventions:
* AWS SDK pointer fields (`*string`, `*int32`) are modelled by their
  dereferenced values: `aws.ToString nil = ""` and `aws.ToInt32 nil = 0`,
  so a plain `String` / `Int` field carries exactly the value the Go code
  observes.
* Every remote call can fail; a failure is either a `smithy.GenericAPIError`
  carrying a code (the only shape the Go code inspects, via `errors.As`)
  or some other error.
* The EC2 client is modelled by an environment that fixes the outcome of
  each kind of call the function makes; the embedded function returns the
  list of API calls it issued (its trace) together with its result.
-/

deriving instance DecidableEq for Except

/-- An AWS SDK error: either a `smithy.GenericAPIError` with its error
code, or any other error (which `errors.As` fails to match). -/
inductive AwsError where
  | api (code : String)
  | other
deriving DecidableEq, Repr

/-- Embedding of `types.IpRange`: a CIDR string plus a free-text description
(pointer fields dereferenced, see module docstring). -/
structure IpRange where
  cidrIp : String
  descr : String
deriving DecidableEq, Repr

/-- Embedding of `types.IpPermission`: protocol, port range and the list of CIDR
entries. `fromPort`/`toPort` are Go `int32` values; the program only
ever compares them, so `Int` is a faithful carrier. -/
structure IpPermission where
  ipProtocol : String
  fromPort : Int
  toPort : Int
  ipRanges : List IpRange
deriving DecidableEq, Repr

/-- Embedding of `types.SecurityGroup`: the fields the program reads. -/
structure SecurityGroup where
  groupId : String
  ipPermissions : List IpPermission
deriving DecidableEq, Repr

/-- One remote EC2 API call, as issued by the program. -/
inductive ApiCall where
  | describeByIds (groupIds : List String)
  | describeByTagName (tagValue : String)
  | revoke (groupId : String) (perms : List IpPermission)
  | authorize (groupId : String) (perms : List IpPermission)
deriving DecidableEq, Repr

/-- The distinct error returns of `syncSecurityGroupRule`
(each constructor corresponds to one `fmt.Errorf` site). -/
inductive SyncError where
  | groupNotFound (sgID : String)
  | describeFailed (sgID : String)
  | emptyDescribe (sgID : String)
  | revokeFailed (descr : String)
  | authorizeFailed (descr : String)
deriving DecidableEq, Repr

/-- The modelled EC2 client for one `syncSecurityGroupRule` invocation:
the outcome of the describe call and, should they be issued, of the
revoke and authorize calls. -/
structure Env where
  describeResult : Except AwsError (List SecurityGroup)
  revokeResult : Except AwsError Unit
  authorizeResult : Except AwsError Unit

/-- The inner loop of `syncSecurityGroupRule` (main.go:164-180) over the
CIDR entries of one matching rule.  Returns the pair
(`found a correct match`, `rangesToRevoke`).  On a correct match
(description and CIDR both equal) the Go loop breaks, so later entries
are not examined; entries with the right description but a different
CIDR are collected for revocation in iteration order.  The Go loop also
builds `rangesToKeep`, which is never read afterwards, so it is not
modelled. -/
def scanRanges (targetCidrIP descr : String) : List IpRange → Bool × List IpRange
  | [] => (false, [])
  | r :: rest =>
    if r.descr = descr then
      if r.cidrIp = targetCidrIP then
        (true, [])
      else
        let tail := scanRanges targetCidrIP descr rest
        (tail.1, r :: tail.2)
    else
      scanRanges targetCidrIP descr rest

/-- The state the outer scan loop of `syncSecurityGroupRule` leaves
behind: the flags `ruleNeedsUpdate` and `ruleNeedsAdding` and the
optional `ruleToRevoke` (main.go:132-134). -/
structure ScanResult where
  ruleNeedsUpdate : Bool
  ruleNeedsAdding : Bool
  ruleToRevoke : Option IpPermission
deriving DecidableEq, Repr

/-- The outer loop of `syncSecurityGroupRule` (main.go:159-198) over the
group's permissions.  Only rules with protocol "tcp" and port range
exactly 0-65535 are examined.  After scanning a rule's entries, a
non-empty `rangesToRevoke` builds `ruleToRevoke` (carrying the rule's
own protocol and ports) and breaks; otherwise a correct match breaks
with nothing to revoke; otherwise the loop continues.  The flag values
at each exit point follow the Go assignments: a correct match resets
both flags to false, a stale entry sets `ruleNeedsUpdate`. -/
def scanPermissions (targetCidrIP descr : String) : List IpPermission → ScanResult
  | [] => { ruleNeedsUpdate := false, ruleNeedsAdding := true, ruleToRevoke := none }
  | p :: rest =>
    if p.ipProtocol = "tcp" ∧ p.fromPort = 0 ∧ p.toPort = 65535 then
      let scanned := scanRanges targetCidrIP descr p.ipRanges
      if scanned.2 ≠ [] then
        { ruleNeedsUpdate := !scanned.1
          ruleNeedsAdding := !scanned.1
          ruleToRevoke := some
            { ipProtocol := p.ipProtocol, fromPort := p.fromPort
              toPort := p.toPort, ipRanges := scanned.2 } }
      else if scanned.1 then
        { ruleNeedsUpdate := false, ruleNeedsAdding := false, ruleToRevoke := none }
      else
        scanPermissions targetCidrIP descr rest
    else
      scanPermissions targetCidrIP descr rest

/-- The single-entry permission the authorize call sends
(main.go:226-238 and main.go:256-268, which build identical requests). -/
def targetPermission (targetCidrIP descr : String) : IpPermission :=
  { ipProtocol := "tcp", fromPort := 0, toPort := 65535
    ipRanges := [{ cidrIp := targetCidrIP, descr := descr }] }

/-- The authorize step shared by both branches of main.go:221-282: the
two branches differ only in their log text.  `InvalidPermission.Duplicate`
is tolerated; any other failure returns the error built at
main.go:246/277. -/
def authorizeStep (env : Env) (sgID targetCidrIP descr : String)
    (trace : List ApiCall) : List ApiCall × Except SyncError Unit :=
  let trace1 := trace ++ [ApiCall.authorize sgID [targetPermission targetCidrIP descr]]
  match env.authorizeResult with
  | .ok _ => (trace1, .ok ())
  | .error e =>
    if e = .api "InvalidPermission.Duplicate" then
      (trace1, .ok ())
    else
      (trace1, .error (.authorizeFailed descr))

/-- The revoke-then-maybe-authorize tail of `syncSecurityGroupRule`
(main.go:200-284), entered with the scan result.  A revoke failing with
`InvalidPermission.NotFound` only logs a warning; any other revoke
failure returns at main.go:214 without authorizing.  The authorize call
is issued exactly when `ruleNeedsAdding` holds (the source splits this
into the `ruleNeedsUpdate` true/false branches, which behave
identically). -/
def mutationSteps (env : Env) (sgID targetCidrIP descr : String)
    (scanned : ScanResult) : List ApiCall × Except SyncError Unit :=
  let trace0 := [ApiCall.describeByIds [sgID]]
  match scanned.ruleToRevoke with
  | some perm =>
    let trace1 := trace0 ++ [ApiCall.revoke sgID [perm]]
    match env.revokeResult with
    | .ok _ =>
      if scanned.ruleNeedsAdding then
        authorizeStep env sgID targetCidrIP descr trace1
      else
        (trace1, .ok ())
    | .error e =>
      if e = .api "InvalidPermission.NotFound" then
        if scanned.ruleNeedsAdding then
          authorizeStep env sgID targetCidrIP descr trace1
        else
          (trace1, .ok ())
      else
        (trace1, .error (.revokeFailed descr))
  | none =>
    if scanned.ruleNeedsAdding then
      authorizeStep env sgID targetCidrIP descr trace0
    else
      (trace0, .ok ())

/-- Embedding of `syncSecurityGroupRule` (main.go:130-285): describe the group,
classify describe failures (`InvalidGroup.NotFound` versus any other),
guard against an empty describe result, scan the first returned group's
permissions, and perform the planned mutations.  Returns the trace of
API calls issued and the function's result. -/
def syncSecurityGroupRule (env : Env) (sgID publicIP descr : String) :
    List ApiCall × Except SyncError Unit :=
  let targetCidrIP := publicIP ++ "/32"
  match env.describeResult with
  | .error e =>
    if e = .api "InvalidGroup.NotFound" then
      ([ApiCall.describeByIds [sgID]], .error (.groupNotFound sgID))
    else
      ([ApiCall.describeByIds [sgID]], .error (.describeFailed sgID))
  | .ok groups =>
    match groups with
    | [] => ([ApiCall.describeByIds [sgID]], .error (.emptyDescribe sgID))
    | theGroup :: _ =>
      mutationSteps env sgID targetCidrIP descr
        (scanPermissions targetCidrIP descr theGroup.ipPermissions)

/-- The usage errors `main` can exit with before any network activity
(main.go:295-308). -/
inductive CliError where
  | myNameRequired
  | noTargetProvided
deriving DecidableEq, Repr

/-- The flag validation performed by `main` (main.go:295-308) before it
contacts any service: `--my-name` must be non-empty, and the run is
rejected only when `--sg-id` and `--sg-tag-name` are BOTH empty.  `none`
means validation passed and the program proceeds to the network phase. -/
def validateFlags (myName sgId sgTagName : String) : Option CliError :=
  if myName = "" then
    some .myNameRequired
  else if sgId = "" ∧ sgTagName = "" then
    some .noTargetProvided
  else
    none

/-- The distinct error returns of `findSecurityGroupID`
(each constructor corresponds to one `fmt.Errorf` site). -/
inductive LocateError where
  | idNotFound (sgID : String)
  | verifyFailed (sgID : String)
  | tagDescribeFailed (tagValue : String)
  | tagNoneFound (tagValue : String)
  | tagMultipleFound (tagValue : String)
  | noFlagGiven
deriving DecidableEq, Repr

/-- The modelled EC2 client for one `findSecurityGroupID` invocation:
the outcome of the describe-by-ID verification call and of the
describe-by-tag lookup, should they be issued. -/
structure LocEnv where
  verifyResult : Except AwsError Unit
  tagResult : Except AwsError (List SecurityGroup)

/-- Embedding of `findSecurityGroupID` (main.go:69-128): a non-empty `sgID` is
verified with a describe call (`--sg-tag-name` is never consulted on
that path); otherwise a non-empty `sgTagName` drives a tag-filtered
describe whose result must contain exactly one group; otherwise the
caller supplied neither flag.  Returns the trace of API calls issued
and the resolved group ID. -/
def findSecurityGroupID (env : LocEnv) (sgID sgTagName : String) :
    List ApiCall × Except LocateError String :=
  if sgID ≠ "" then
    let trace := [ApiCall.describeByIds [sgID]]
    match env.verifyResult with
    | .ok _ => (trace, .ok sgID)
    | .error e =>
      if e = .api "InvalidGroup.NotFound" then
        (trace, .error (.idNotFound sgID))
      else
        (trace, .error (.verifyFailed sgID))
  else if sgTagName ≠ "" then
    let trace := [ApiCall.describeByTagName sgTagName]
    match env.tagResult with
    | .error _ => (trace, .error (.tagDescribeFailed sgTagName))
    | .ok groups =>
      match groups with
      | [] => (trace, .error (.tagNoneFound sgTagName))
      | g :: rest =>
        if rest = [] then
          (trace, .ok g.groupId)
        else
          (trace, .error (.tagMultipleFound sgTagName))
  else
    ([], .error .noFlagGiven)

/-- The aggregate outcome of a fan-out run: a success count and the
ordered list of per-group failures. -/
structure BatchResult where
  successCount : Nat
  failures : List (String × SyncError)
deriving DecidableEq, Repr

/-- Modelled from the spec: the fan-out coordinator (spec §4.3) of the
multi-group variant of this tool, whose source is not among the
snapshots under src/ (the included `main` handles a single group).  It
runs one reconciliation per resolved group ID, each with its own
outcome, collects exactly one outcome per ID, and aggregates a success
count and the ordered list of failures; a failing group never prevents
the remaining groups from being attempted.  Concurrency is modelled by
the per-group outcomes being independent of one another. -/
def runBatch (outcome : String → Except SyncError Unit) :
    List String → BatchResult
  | [] => { successCount := 0, failures := [] }
  | g :: rest =>
    let tail := runBatch outcome rest
    match outcome g with
    | .ok _ => { successCount := tail.successCount + 1, failures := tail.failures }
    | .error e => { successCount := tail.successCount, failures := (g, e) :: tail.failures }

/-- The guard of the outer scan loop (main.go:160) as a Boolean
predicate: protocol "tcp" with port range exactly 0-65535. -/
def manageable (p : IpPermission) : Bool :=
  p.ipProtocol == "tcp" && p.fromPort == 0 && p.toPort == 65535

/-- Whether a rule holds any CIDR entry carrying the given
description. -/
def hasDescrEntry (descr : String) (p : IpPermission) : Bool :=
  p.ipRanges.any fun r => r.descr == descr

/-- Whether a reconciliation outcome is a success. -/
def isOk : Except SyncError Unit → Bool
  | .ok _ => true
  | .error _ => false

/-- Whether an API call is a revoke. -/
def isRevoke : ApiCall → Bool
  | .revoke _ _ => true
  | _ => false

/-- Whether an API call is an authorize. -/
def isAuthorize : ApiCall → Bool
  | .authorize _ _ => true
  | _ => false

theorem manageable_eq_true (p : IpPermission) :
    manageable p = true ↔
      (p.ipProtocol = "tcp" ∧ p.fromPort = 0 ∧ p.toPort = 65535) := by
  simp [manageable, and_assoc]

theorem hasDescrEntry_eq_false (descr : String) (p : IpPermission) :
    hasDescrEntry descr p = false ↔ ∀ r ∈ p.ipRanges, ¬ r.descr = descr := by
  simp [hasDescrEntry]

/-- Every entry collected for revocation carries the managed description
and a CIDR different from the target. -/
theorem scanRanges_mem (t d : String) (ranges : List IpRange) :
    ∀ r ∈ (scanRanges t d ranges).2, r.descr = d ∧ r.cidrIp ≠ t := by
  induction ranges with
  | nil => simp [scanRanges]
  | cons a rest ih =>
    intro r hr
    by_cases h1 : a.descr = d
    · by_cases h2 : a.cidrIp = t
      · rw [scanRanges, if_pos h1, if_pos h2] at hr
        simp at hr
      · rw [scanRanges, if_pos h1, if_neg h2] at hr
        rcases List.mem_cons.mp hr with rfl | hr2
        · exact ⟨h1, h2⟩
        · exact ih r hr2
    · rw [scanRanges, if_neg h1] at hr
      exact ih r hr

/-- When no entry with the managed description carries the target CIDR,
the inner scan finds no match and collects exactly the entries with the
managed description, in order. -/
theorem scanRanges_no_match (t d : String) (ranges : List IpRange)
    (h : ∀ r ∈ ranges, r.descr = d → r.cidrIp ≠ t) :
    scanRanges t d ranges = (false, ranges.filter fun r => r.descr == d) := by
  induction ranges with
  | nil => simp [scanRanges]
  | cons a rest ih =>
    have hrest : ∀ r ∈ rest, r.descr = d → r.cidrIp ≠ t :=
      fun r hr => h r (List.mem_cons_of_mem a hr)
    by_cases h1 : a.descr = d
    · rw [scanRanges, if_pos h1, if_neg (h a (List.mem_cons_self a rest) h1)]
      rw [ih hrest]
      simp [List.filter_cons, h1]
    · rw [scanRanges, if_neg h1]
      rw [ih hrest]
      simp [List.filter_cons, h1]

/-- When the first entry with the managed description carries the target
CIDR, the inner scan reports a match and collects nothing. -/
theorem scanRanges_match_first (t d : String) (ranges : List IpRange)
    (r : IpRange) (hfind : ranges.find? (fun x => x.descr == d) = some r)
    (hc : r.cidrIp = t) :
    scanRanges t d ranges = (true, []) := by
  induction ranges with
  | nil => simp at hfind
  | cons a rest ih =>
    by_cases h1 : a.descr = d
    · have ha : a = r := by
        have h2 := List.find?_cons_of_pos (p := fun x => x.descr == d) (a := a) rest
          (by simp [h1])
        rw [h2] at hfind
        exact Option.some.inj hfind
      rw [scanRanges, if_pos h1, if_pos (ha ▸ hc)]
    · have hfind2 : rest.find? (fun x => x.descr == d) = some r := by
        have h2 := List.find?_cons_of_neg (p := fun x => x.descr == d) (a := a) rest
          (by simp [h1])
        rw [h2] at hfind
        exact hfind
      rw [scanRanges, if_neg h1]
      exact ih hfind2

/-- A rule the scan predicate rejects (not manageable, or holding no
entry with the managed description) leaves the outer scan unchanged. -/
theorem scanPermissions_skip (t d : String) (a : IpPermission)
    (rest : List IpPermission)
    (hpred : (manageable a && hasDescrEntry d a) = false) :
    scanPermissions t d (a :: rest) = scanPermissions t d rest := by
  by_cases hg : a.ipProtocol = "tcp" ∧ a.fromPort = 0 ∧ a.toPort = 65535
  · have hm : manageable a = true := (manageable_eq_true a).mpr hg
    have hd : hasDescrEntry d a = false := by
      cases hda : hasDescrEntry d a
      · rfl
      · rw [hm, hda] at hpred
        simp at hpred
    have hnone : ∀ r ∈ a.ipRanges, ¬ r.descr = d := (hasDescrEntry_eq_false d a).mp hd
    have hscan : scanRanges t d a.ipRanges = (false, []) := by
      rw [scanRanges_no_match t d a.ipRanges fun r hr hrd => absurd hrd (hnone r hr)]
      have : a.ipRanges.filter (fun r => r.descr == d) = [] := by
        rw [List.filter_eq_nil_iff]
        intro r hr
        simpa using hnone r hr
      rw [this]
    simp only [scanPermissions, if_pos hg, hscan]
    simp
  · simp only [scanPermissions, if_neg hg]

/-- When no entry anywhere carries the target CIDR under the managed
description, the outer scan stops at the first manageable rule holding
an entry with the managed description and plans to revoke exactly that
rule's matching entries. -/
theorem scanPermissions_stale (t d : String) (perms : List IpPermission)
    (p : IpPermission)
    (hstale : ∀ q ∈ perms, manageable q = true →
      ∀ r ∈ q.ipRanges, r.descr = d → r.cidrIp ≠ t)
    (hfind : perms.find? (fun q => manageable q && hasDescrEntry d q) = some p) :
    scanPermissions t d perms =
      { ruleNeedsUpdate := true, ruleNeedsAdding := true
        ruleToRevoke := some
          { ipProtocol := p.ipProtocol, fromPort := p.fromPort
            toPort := p.toPort
            ipRanges := p.ipRanges.filter fun r => r.descr == d } } := by
  induction perms with
  | nil => simp at hfind
  | cons a rest ih =>
    cases hpred : (manageable a && hasDescrEntry d a) with
    | false =>
      rw [scanPermissions_skip t d a rest hpred]
      have hfind2 : rest.find? (fun q => manageable q && hasDescrEntry d q) = some p := by
        rw [List.find?_cons_of_neg rest (by simp [hpred])] at hfind
        exact hfind
      exact ih (fun q hq => hstale q (List.mem_cons_of_mem a hq)) hfind2
    | true =>
      have ha : a = p := by
        rw [List.find?_cons_of_pos rest hpred] at hfind
        exact Option.some.inj hfind
      subst ha
      obtain ⟨hm, hd⟩ := Bool.and_eq_true_iff.mp hpred
      have hg := (manageable_eq_true a).mp hm
      have hscan := scanRanges_no_match t d a.ipRanges
        (hstale a (List.mem_cons_self a rest) hm)
      have hne : (a.ipRanges.filter fun r => r.descr == d) ≠ [] := by
        obtain ⟨r, hr, hrd⟩ := List.any_eq_true.mp hd
        intro hnil
        exact absurd hrd (List.filter_eq_nil_iff.mp hnil r hr)
      simp only [scanPermissions, if_pos hg, hscan]
      simp [hne]

/-- When the first manageable rule holding an entry with the managed
description has the exact target entry first among those, the outer
scan reports the state as already correct. -/
theorem scanPermissions_correct_first (t d : String) (perms : List IpPermission)
    (p : IpPermission) (r : IpRange)
    (hfind : perms.find? (fun q => manageable q && hasDescrEntry d q) = some p)
    (hr : p.ipRanges.find? (fun x => x.descr == d) = some r)
    (hc : r.cidrIp = t) :
    scanPermissions t d perms =
      { ruleNeedsUpdate := false, ruleNeedsAdding := false, ruleToRevoke := none } := by
  induction perms with
  | nil => simp at hfind
  | cons a rest ih =>
    cases hpred : (manageable a && hasDescrEntry d a) with
    | false =>
      rw [scanPermissions_skip t d a rest hpred]
      have hfind2 : rest.find? (fun q => manageable q && hasDescrEntry d q) = some p := by
        rw [List.find?_cons_of_neg rest (by simp [hpred])] at hfind
        exact hfind
      exact ih hfind2
    | true =>
      have ha : a = p := by
        rw [List.find?_cons_of_pos rest hpred] at hfind
        exact Option.some.inj hfind
      subst ha
      obtain ⟨hm, _⟩ := Bool.and_eq_true_iff.mp hpred
      have hg := (manageable_eq_true a).mp hm
      have hscan := scanRanges_match_first t d a.ipRanges r hr hc
      simp only [scanPermissions, if_pos hg, hscan]
      simp

/-- Whatever the scan plans to revoke is a tcp/0-65535 rule whose
(non-empty) entries all carry the managed description and a CIDR
different from the target. -/
theorem scanPermissions_revoke_shape (t d : String) (perms : List IpPermission)
    (perm : IpPermission)
    (h : (scanPermissions t d perms).ruleToRevoke = some perm) :
    perm.ipProtocol = "tcp" ∧ perm.fromPort = 0 ∧ perm.toPort = 65535 ∧
      perm.ipRanges ≠ [] ∧ ∀ r ∈ perm.ipRanges, r.descr = d ∧ r.cidrIp ≠ t := by
  induction perms with
  | nil => simp [scanPermissions] at h
  | cons a rest ih =>
    by_cases hg : a.ipProtocol = "tcp" ∧ a.fromPort = 0 ∧ a.toPort = 65535
    · by_cases hne : (scanRanges t d a.ipRanges).2 ≠ []
      · simp only [scanPermissions, if_pos hg, if_pos hne] at h
        simp only [Option.some.injEq] at h
        subst h
        exact ⟨hg.1, hg.2.1, hg.2.2, hne, fun r hr => scanRanges_mem t d a.ipRanges r hr⟩
      · by_cases hf : (scanRanges t d a.ipRanges).1 = true
        · simp only [scanPermissions, if_pos hg, if_neg hne, if_pos hf] at h
          simp at h
        · simp only [scanPermissions, if_pos hg, if_neg hne, if_neg hf] at h
          exact ih h
    · simp only [scanPermissions, if_neg hg] at h
      exact ih h

/-- The authorize step always appends exactly one authorize call carrying
the target tuple, whatever its outcome. -/
theorem authorizeStep_fst (env : Env) (sg t d : String) (tr : List ApiCall) :
    (authorizeStep env sg t d tr).1
      = tr ++ [ApiCall.authorize sg [targetPermission t d]] := by
  unfold authorizeStep
  rcases h : env.authorizeResult with e | u
  · simp only [h]
    by_cases he : e = .api "InvalidPermission.Duplicate" <;> simp [he]
  · simp [h]

/-- A successful authorize outcome yields success. -/
theorem authorizeStep_ok (env : Env) (sg t d : String) (tr : List ApiCall)
    (h : env.authorizeResult = .ok ()) :
    (authorizeStep env sg t d tr).2 = .ok () := by
  simp [authorizeStep, h]

/-- An authorize outcome of `InvalidPermission.Duplicate` yields
success. -/
theorem authorizeStep_dup (env : Env) (sg t d : String) (tr : List ApiCall)
    (h : env.authorizeResult = .error (.api "InvalidPermission.Duplicate")) :
    (authorizeStep env sg t d tr).2 = .ok () := by
  simp [authorizeStep, h]

/-- Concrete fixtures used to instantiate the theorems below. -/
def staleHomeA : IpRange := { cidrIp := "1.2.3.4/32", descr := "home" }

def staleHomeB : IpRange := { cidrIp := "2.2.2.2/32", descr := "home" }

def currentHome : IpRange := { cidrIp := "5.6.7.8/32", descr := "home" }

def tcpAllPorts (rs : List IpRange) : IpPermission :=
  { ipProtocol := "tcp", fromPort := 0, toPort := 65535, ipRanges := rs }

def sgWith (perms : List IpPermission) : SecurityGroup :=
  { groupId := "sg-1", ipPermissions := perms }

def happyEnv (perms : List IpPermission) : Env :=
  { describeResult := .ok [sgWith perms]
    revokeResult := .ok (), authorizeResult := .ok () }

/-- Claim C7: a describe failure of `InvalidGroup.NotFound` yields the
dedicated not-found error, any other describe failure yields the
distinct describe-failed error, and in both cases the trace holds the
lone describe call — no revoke and no authorize is issued. -/
theorem claim7_describe_failure (env : Env) (sg ip d : String) (e : AwsError)
    (h : env.describeResult = .error e) :
    syncSecurityGroupRule env sg ip d
        = ([ApiCall.describeByIds [sg]],
           .error (if e = .api "InvalidGroup.NotFound" then .groupNotFound sg
                   else .describeFailed sg)) ∧
      SyncError.groupNotFound sg ≠ SyncError.describeFailed sg := by
  constructor
  · simp only [syncSecurityGroupRule, h]
    by_cases he : e = .api "InvalidGroup.NotFound" <;> simp [he]
  · simp

/-- Witness for C7 at both failure codes. -/
theorem claim7_witness :
    ({ describeResult := .error (.api "InvalidGroup.NotFound")
       revokeResult := .ok (), authorizeResult := .ok () } : Env).describeResult
        = .error (.api "InvalidGroup.NotFound") ∧
      syncSecurityGroupRule
          { describeResult := .error (.api "InvalidGroup.NotFound")
            revokeResult := .ok (), authorizeResult := .ok () } "sg-1" "5.6.7.8" "home"
        = ([ApiCall.describeByIds ["sg-1"]], .error (.groupNotFound "sg-1")) ∧
      syncSecurityGroupRule
          { describeResult := .error .other
            revokeResult := .ok (), authorizeResult := .ok () } "sg-1" "5.6.7.8" "home"
        = ([ApiCall.describeByIds ["sg-1"]], .error (.describeFailed "sg-1")) := by
  refine ⟨rfl, ?_, ?_⟩
  · have h := claim7_describe_failure
      { describeResult := .error (.api "InvalidGroup.NotFound")
        revokeResult := .ok (), authorizeResult := .ok () }
      "sg-1" "5.6.7.8" "home" (.api "InvalidGroup.NotFound") rfl
    simpa using h.1
  · have h := claim7_describe_failure
      { describeResult := .error .other
        revokeResult := .ok (), authorizeResult := .ok () }
      "sg-1" "5.6.7.8" "home" .other rfl
    simpa using h.1

/-- Claim C10: a describe call that succeeds with an empty group list makes
the reconciler return the dedicated error with only the describe call
issued; the embedded function (like the guard at main.go:153-155)
never reads the head of the empty list. -/
theorem claim10_empty_describe (env : Env) (sg ip d : String)
    (h : env.describeResult = .ok []) :
    syncSecurityGroupRule env sg ip d
      = ([ApiCall.describeByIds [sg]], .error (.emptyDescribe sg)) := by
  simp [syncSecurityGroupRule, h]

/-- Witness for C10. -/
theorem claim10_witness :
    syncSecurityGroupRule
        { describeResult := .ok [], revokeResult := .ok ()
          authorizeResult := .ok () } "sg-1" "5.6.7.8" "home"
      = ([ApiCall.describeByIds ["sg-1"]], .error (.emptyDescribe "sg-1")) :=
  claim10_empty_describe
    { describeResult := .ok [], revokeResult := .ok (), authorizeResult := .ok () }
    "sg-1" "5.6.7.8" "home" rfl

/-- The authorize step never reads the revoke outcome. -/
theorem authorizeStep_revoke_irrelevant (dr : Except AwsError (List SecurityGroup))
    (rr rr2 ar : Except AwsError Unit) (sg t d : String) (tr : List ApiCall) :
    authorizeStep ⟨dr, rr, ar⟩ sg t d tr = authorizeStep ⟨dr, rr2, ar⟩ sg t d tr := rfl

/-- A revoke outcome of `InvalidPermission.NotFound` leaves the whole
mutation phase behaving exactly as a successful revoke. -/
theorem mutationSteps_revoke_notfound (env : Env) (sg t d : String) (s : ScanResult) :
    mutationSteps { env with revokeResult := .error (.api "InvalidPermission.NotFound") }
        sg t d s
      = mutationSteps { env with revokeResult := .ok () } sg t d s := by
  obtain ⟨dr, rr, ar⟩ := env
  simp only [mutationSteps, authorizeStep]
  rcases s.ruleToRevoke with _ | perm <;> simp

/-- Claim C6: a revoke call failing with `InvalidPermission.NotFound` is
benign — the reconciler issues the same calls and returns the same
result as if the revoke had succeeded (so it proceeds to the authorize
step and reports no error for that reason). -/
theorem claim6_revoke_notfound_benign (env : Env) (sg ip d : String) :
    syncSecurityGroupRule
        { env with revokeResult := .error (.api "InvalidPermission.NotFound") } sg ip d
      = syncSecurityGroupRule { env with revokeResult := .ok () } sg ip d := by
  obtain ⟨dr, rr, ar⟩ := env
  simp only [syncSecurityGroupRule]
  rcases dr with e | groups
  · rfl
  · rcases groups with _ | ⟨g0, gs⟩
    · rfl
    · exact mutationSteps_revoke_notfound ⟨.ok (g0 :: gs), rr, ar⟩ sg (ip ++ "/32") d _


/-- Under a duplicate-error authorize outcome, whenever the mutation
phase issued an authorize call its overall result is success. -/
theorem mutationSteps_dup (dr : Except AwsError (List SecurityGroup))
    (rr : Except AwsError Unit) (sg t d : String) (s : ScanResult)
    (g : String) (ps : List IpPermission)
    (hmem : ApiCall.authorize g ps ∈
      (mutationSteps ⟨dr, rr, .error (.api "InvalidPermission.Duplicate")⟩ sg t d s).1) :
    (mutationSteps ⟨dr, rr, .error (.api "InvalidPermission.Duplicate")⟩ sg t d s).2
      = .ok () := by
  rcases hsc : s.ruleToRevoke with _ | perm
  · simp only [mutationSteps, hsc] at hmem ⊢
    by_cases hb : s.ruleNeedsAdding = true
    · rw [if_pos hb]
      exact authorizeStep_dup _ _ _ _ _ (by rfl)
    · rw [if_neg hb]
  · rcases rr with e | u
    · by_cases he : e = .api "InvalidPermission.NotFound"
      · subst he
        simp only [mutationSteps, hsc] at hmem ⊢
        rw [if_pos trivial] at hmem ⊢
        by_cases hb : s.ruleNeedsAdding = true
        · rw [if_pos hb]
          exact authorizeStep_dup _ _ _ _ _ (by rfl)
        · rw [if_neg hb]
      · simp only [mutationSteps, hsc, if_neg he] at hmem
        simp at hmem
    · simp only [mutationSteps, hsc] at hmem ⊢
      by_cases hb : s.ruleNeedsAdding = true
      · rw [if_pos hb]
        exact authorizeStep_dup _ _ _ _ _ (by rfl)
      · rw [if_neg hb]

/-- Claim C5: whenever the authorize call fails with
`InvalidPermission.Duplicate`, the reconciliation returns success
rather than an error. -/
theorem claim5_duplicate_tolerated (env : Env) (sg ip d g : String)
    (ps : List IpPermission)
    (hdup : env.authorizeResult = .error (.api "InvalidPermission.Duplicate"))
    (hmem : ApiCall.authorize g ps ∈ (syncSecurityGroupRule env sg ip d).1) :
    (syncSecurityGroupRule env sg ip d).2 = .ok () := by
  obtain ⟨dr, rr, ar⟩ := env
  simp only at hdup
  subst hdup
  rcases dr with e | groups
  · by_cases he : e = .api "InvalidGroup.NotFound" <;>
      simp [syncSecurityGroupRule, he] at hmem
  · rcases groups with _ | ⟨g0, gs⟩
    · simp [syncSecurityGroupRule] at hmem
    · simp only [syncSecurityGroupRule] at hmem ⊢
      exact mutationSteps_dup (.ok (g0 :: gs)) rr sg (ip ++ "/32") d _ g ps hmem

/-- Witness for C5: a group with no managed entry, an authorize that
fails with the duplicate code, and a successful result. -/
theorem claim5_witness :
    (ApiCall.authorize "sg-1" [targetPermission "5.6.7.8/32" "home"] ∈
        (syncSecurityGroupRule
          { describeResult := .ok [sgWith []]
            revokeResult := .ok ()
            authorizeResult := .error (.api "InvalidPermission.Duplicate") }
          "sg-1" "5.6.7.8" "home").1) ∧
      (syncSecurityGroupRule
          { describeResult := .ok [sgWith []]
            revokeResult := .ok ()
            authorizeResult := .error (.api "InvalidPermission.Duplicate") }
          "sg-1" "5.6.7.8" "home").2 = .ok () := by
  refine ⟨by decide, ?_⟩
  exact claim5_duplicate_tolerated
    { describeResult := .ok [sgWith []]
      revokeResult := .ok ()
      authorizeResult := .error (.api "InvalidPermission.Duplicate") }
    "sg-1" "5.6.7.8" "home" "sg-1" [targetPermission "5.6.7.8/32" "home"]
    rfl (by decide)

/-- Claim C1 counterexample: the group's tcp/0-65535 rules hold only stale
entries under the target description and no exact match, yet the single
revoke call does not carry all those stale entries: the stale entry of
the second tcp/0-65535 rule (`staleHomeB`) is absent from the trace,
which revokes only the first rule's entry before authorizing. -/
theorem claim1_counterexample :
    (staleHomeB ∈ (tcpAllPorts [staleHomeB]).ipRanges ∧
        staleHomeB.descr = "home" ∧ staleHomeB.cidrIp ≠ "5.6.7.8/32" ∧
        ∀ q ∈ [tcpAllPorts [staleHomeA], tcpAllPorts [staleHomeB]],
          ∀ r ∈ q.ipRanges, r.descr = "home" ∧ r.cidrIp ≠ "5.6.7.8/32") ∧
      syncSecurityGroupRule
          (happyEnv [tcpAllPorts [staleHomeA], tcpAllPorts [staleHomeB]])
          "sg-1" "5.6.7.8" "home"
        = ([ApiCall.describeByIds ["sg-1"],
            ApiCall.revoke "sg-1" [tcpAllPorts [staleHomeA]],
            ApiCall.authorize "sg-1" [targetPermission "5.6.7.8/32" "home"]],
           .ok ()) := by
  decide

/-- Claim C1 as amended: when every entry under the target description in
every tcp/0-65535 rule is stale (no exact match exists) and at least
one such entry exists, one reconcile call issues exactly one revoke —
carrying the stale entries of the FIRST tcp/0-65535 rule that has any,
with that rule's protocol and port range — followed by exactly one
authorize with (tcp, 0, 65535, targetCidr, description), and returns
success. -/
theorem claim1_stale_convergence (env : Env) (sg ip d : String)
    (g : SecurityGroup) (gs : List SecurityGroup) (p : IpPermission)
    (hdesc : env.describeResult = .ok (g :: gs))
    (hrev : env.revokeResult = .ok ())
    (hauth : env.authorizeResult = .ok ())
    (hstale : ∀ q ∈ g.ipPermissions, manageable q = true →
      ∀ r ∈ q.ipRanges, r.descr = d → r.cidrIp ≠ ip ++ "/32")
    (hfind : g.ipPermissions.find?
      (fun q => manageable q && hasDescrEntry d q) = some p) :
    syncSecurityGroupRule env sg ip d
      = ([ApiCall.describeByIds [sg],
          ApiCall.revoke sg
            [{ ipProtocol := "tcp", fromPort := 0, toPort := 65535
               ipRanges := p.ipRanges.filter fun r => r.descr == d }],
          ApiCall.authorize sg [targetPermission (ip ++ "/32") d]], .ok ()) := by
  have hscan := scanPermissions_stale (ip ++ "/32") d g.ipPermissions p hstale hfind
  have hp0 := List.find?_some hfind
  simp only [Bool.and_eq_true] at hp0
  have hg3 := (manageable_eq_true p).mp hp0.1
  obtain ⟨dr, rr, ar⟩ := env
  simp only at hdesc hrev hauth
  subst hdesc
  subst hrev
  subst hauth
  simp only [syncSecurityGroupRule, mutationSteps, hscan, authorizeStep]
  simp [hg3.1, hg3.2.1, hg3.2.2]

/-- Witness for C1 (amended): one stale entry in one rule is revoked
and the fresh entry authorized. -/
theorem claim1_witness :
    syncSecurityGroupRule (happyEnv [tcpAllPorts [staleHomeA]]) "sg-1" "5.6.7.8" "home"
      = ([ApiCall.describeByIds ["sg-1"],
          ApiCall.revoke "sg-1" [tcpAllPorts [staleHomeA]],
          ApiCall.authorize "sg-1" [targetPermission "5.6.7.8/32" "home"]], .ok ()) := by
  have h := claim1_stale_convergence (happyEnv [tcpAllPorts [staleHomeA]])
    "sg-1" "5.6.7.8" "home" (sgWith [tcpAllPorts [staleHomeA]]) []
    (tcpAllPorts [staleHomeA]) rfl rfl rfl (by decide) (by decide)
  rw [h]
  decide

/-- Claim C2 counterexample: the lone tcp/0-65535 rule holds an entry exactly
matching (targetCidr, description), yet reconcile issues a mutating
call — the stale entry listed before the match is revoked. -/
theorem claim2_counterexample :
    (currentHome ∈ (tcpAllPorts [staleHomeA, currentHome]).ipRanges ∧
        currentHome.cidrIp = "5.6.7.8/32" ∧ currentHome.descr = "home") ∧
      (syncSecurityGroupRule (happyEnv [tcpAllPorts [staleHomeA, currentHome]])
          "sg-1" "5.6.7.8" "home").1.countP isRevoke = 1 := by
  decide

/-- Claim C2 as amended: reconcile issues zero mutating calls provided the
exact match is the FIRST entry under the target description within the
FIRST tcp/0-65535 rule holding any such entry; stale same-description
entries after the match (or in later rules) are left untouched with no
calls, but a stale entry scanned before the match triggers a revoke. -/
theorem claim2_correct_noop (env : Env) (sg ip d : String)
    (g : SecurityGroup) (gs : List SecurityGroup) (p : IpPermission) (r : IpRange)
    (hdesc : env.describeResult = .ok (g :: gs))
    (hfind : g.ipPermissions.find?
      (fun q => manageable q && hasDescrEntry d q) = some p)
    (hr : p.ipRanges.find? (fun x => x.descr == d) = some r)
    (hc : r.cidrIp = ip ++ "/32") :
    syncSecurityGroupRule env sg ip d = ([ApiCall.describeByIds [sg]], .ok ()) := by
  have hscan := scanPermissions_correct_first (ip ++ "/32") d g.ipPermissions p r hfind hr hc
  obtain ⟨dr, rr, ar⟩ := env
  simp only at hdesc
  subst hdesc
  simp only [syncSecurityGroupRule, mutationSteps, hscan]
  simp

/-- Witness for C2 (amended): the exact match first, a stale sibling
after it, zero mutating calls. -/
theorem claim2_witness :
    syncSecurityGroupRule (happyEnv [tcpAllPorts [currentHome, staleHomeA]])
        "sg-1" "5.6.7.8" "home"
      = ([ApiCall.describeByIds ["sg-1"]], .ok ()) := by
  have h := claim2_correct_noop (happyEnv [tcpAllPorts [currentHome, staleHomeA]])
    "sg-1" "5.6.7.8" "home" (sgWith [tcpAllPorts [currentHome, staleHomeA]]) []
    (tcpAllPorts [currentHome, staleHomeA]) currentHome rfl (by decide) (by decide)
    (by decide)
  exact h

/-- Any revoke call in the mutation phase's trace targets the given
group and carries exactly the planned rule. -/
theorem mutationSteps_revoke_mem (dr : Except AwsError (List SecurityGroup))
    (rr ar : Except AwsError Unit) (sg t d : String) (s : ScanResult)
    (g : String) (perms : List IpPermission)
    (hmem : ApiCall.revoke g perms ∈ (mutationSteps ⟨dr, rr, ar⟩ sg t d s).1) :
    g = sg ∧ ∃ perm, s.ruleToRevoke = some perm ∧ perms = [perm] := by
  rcases hsc : s.ruleToRevoke with _ | perm
  · simp only [mutationSteps, hsc] at hmem
    by_cases hb : s.ruleNeedsAdding = true
    · rw [if_pos hb, authorizeStep_fst] at hmem
      simp at hmem
    · rw [if_neg hb] at hmem
      simp at hmem
  · rcases rr with e | u
    · by_cases he : e = .api "InvalidPermission.NotFound"
      · subst he
        simp only [mutationSteps, hsc] at hmem
        rw [if_pos trivial] at hmem
        by_cases hb : s.ruleNeedsAdding = true
        · rw [if_pos hb, authorizeStep_fst] at hmem
          simp at hmem
          exact ⟨hmem.1, perm, rfl, hmem.2⟩
        · rw [if_neg hb] at hmem
          simp at hmem
          exact ⟨hmem.1, perm, rfl, hmem.2⟩
      · simp only [mutationSteps, hsc, if_neg he] at hmem
        simp at hmem
        exact ⟨hmem.1, perm, rfl, hmem.2⟩
    · simp only [mutationSteps, hsc] at hmem
      by_cases hb : s.ruleNeedsAdding = true
      · rw [if_pos hb, authorizeStep_fst] at hmem
        simp at hmem
        exact ⟨hmem.1, perm, rfl, hmem.2⟩
      · rw [if_neg hb] at hmem
        simp at hmem
        exact ⟨hmem.1, perm, rfl, hmem.2⟩

/-- Claim C8: every revoke call the reconciler issues targets the given group
and consists of a single rule with protocol tcp and port range exactly
0-65535, all of whose CIDR entries carry the target description;
entries with other descriptions, and rules with other protocols or
port ranges, never appear in a revoke request. -/
theorem claim8_revoke_frame (env : Env) (sg ip d : String) (g : String)
    (perms : List IpPermission)
    (hmem : ApiCall.revoke g perms ∈ (syncSecurityGroupRule env sg ip d).1) :
    g = sg ∧ ∃ perm, perms = [perm] ∧ perm.ipProtocol = "tcp" ∧
      perm.fromPort = 0 ∧ perm.toPort = 65535 ∧
      ∀ r ∈ perm.ipRanges, r.descr = d := by
  obtain ⟨dr, rr, ar⟩ := env
  rcases dr with e | groups
  · by_cases he : e = .api "InvalidGroup.NotFound" <;>
      simp [syncSecurityGroupRule, he] at hmem
  · rcases groups with _ | ⟨g0, gs⟩
    · simp [syncSecurityGroupRule] at hmem
    · simp only [syncSecurityGroupRule] at hmem
      obtain ⟨hg, perm, hsc, hp⟩ :=
        mutationSteps_revoke_mem (.ok (g0 :: gs)) rr ar sg (ip ++ "/32") d _ g perms hmem
      have hshape := scanPermissions_revoke_shape (ip ++ "/32") d g0.ipPermissions perm hsc
      exact ⟨hg, perm, hp, hshape.1, hshape.2.1, hshape.2.2.1,
        fun r hr => (hshape.2.2.2.2 r hr).1⟩

/-- Witness for C8: a revoke occurs and has the stated shape. -/
theorem claim8_witness :
    (ApiCall.revoke "sg-1" [tcpAllPorts [staleHomeA]] ∈
        (syncSecurityGroupRule (happyEnv [tcpAllPorts [staleHomeA]])
          "sg-1" "5.6.7.8" "home").1) ∧
      ("sg-1" = "sg-1" ∧ ∃ perm, [tcpAllPorts [staleHomeA]] = [perm] ∧
        perm.ipProtocol = "tcp" ∧ perm.fromPort = 0 ∧ perm.toPort = 65535 ∧
        ∀ r ∈ perm.ipRanges, r.descr = "home") := by
  refine ⟨by decide, ?_⟩
  exact claim8_revoke_frame (happyEnv [tcpAllPorts [staleHomeA]]) "sg-1" "5.6.7.8"
    "home" "sg-1" [tcpAllPorts [staleHomeA]] (by decide)

/-- The mutation phase issues at most one revoke and at most one
authorize call. -/
theorem mutationSteps_counts (dr : Except AwsError (List SecurityGroup))
    (rr ar : Except AwsError Unit) (sg t d : String) (s : ScanResult) :
    (mutationSteps ⟨dr, rr, ar⟩ sg t d s).1.countP isRevoke ≤ 1 ∧
      (mutationSteps ⟨dr, rr, ar⟩ sg t d s).1.countP isAuthorize ≤ 1 := by
  rcases hsc : s.ruleToRevoke with _ | perm
  · simp only [mutationSteps, hsc]
    by_cases hb : s.ruleNeedsAdding = true
    · rw [if_pos hb, authorizeStep_fst]
      simp [isRevoke, isAuthorize]
    · rw [if_neg hb]
      simp [isRevoke, isAuthorize]
  · rcases rr with e | u
    · by_cases he : e = .api "InvalidPermission.NotFound"
      · subst he
        simp only [mutationSteps, hsc]
        rw [if_pos trivial]
        by_cases hb : s.ruleNeedsAdding = true
        · rw [if_pos hb, authorizeStep_fst]
          simp [isRevoke, isAuthorize]
        · rw [if_neg hb]
          simp [isRevoke, isAuthorize]
      · simp only [mutationSteps, hsc, if_neg he]
        simp [isRevoke, isAuthorize]
    · simp only [mutationSteps, hsc]
      by_cases hb : s.ruleNeedsAdding = true
      · rw [if_pos hb, authorizeStep_fst]
        simp [isRevoke, isAuthorize]
      · rw [if_neg hb]
        simp [isRevoke, isAuthorize]

/-- Claim C9: one reconcile invocation issues at most one revoke call and at
most one authorize call, whatever the observed group state and call
outcomes. -/
theorem claim9_at_most_one_each (env : Env) (sg ip d : String) :
    (syncSecurityGroupRule env sg ip d).1.countP isRevoke ≤ 1 ∧
      (syncSecurityGroupRule env sg ip d).1.countP isAuthorize ≤ 1 := by
  obtain ⟨dr, rr, ar⟩ := env
  rcases dr with e | groups
  · by_cases he : e = .api "InvalidGroup.NotFound" <;>
      simp [syncSecurityGroupRule, he, isRevoke, isAuthorize]
  · rcases groups with _ | ⟨g0, gs⟩
    · simp [syncSecurityGroupRule, isRevoke, isAuthorize]
    · simp only [syncSecurityGroupRule]
      exact mutationSteps_counts (.ok (g0 :: gs)) rr ar sg (ip ++ "/32") d _

/-- Claim C3 counterexample: with --my-name set and BOTH --sg-id and
--sg-tag-name supplied non-empty, the validation in `main`
(main.go:295-308) does not reject the input as a usage error, and the
locator then issues a network call (the describe verifying the explicit
ID) — the run is not stopped beforehand. -/
theorem claim3_counterexample :
    validateFlags "home" "sg-1" "web" = none ∧
      (findSecurityGroupID ⟨.ok (), .ok []⟩ "sg-1" "web").1
        = [ApiCall.describeByIds ["sg-1"]] := by
  decide

/-- Claim C3 as amended: supplying both flags with non-empty values is
accepted, not rejected — validation passes whenever --my-name is
non-empty and at least one target flag is non-empty, and the locator
then resolves through --sg-id with --sg-tag-name ignored entirely; only
the run supplying neither target flag is a usage error, and the locator
given two empty flags issues no network call. -/
theorem claim3_both_flags_accepted (myName sgId sgTagName : String)
    (env : LocEnv) (hm : myName ≠ "") (hi : sgId ≠ "") :
    validateFlags myName sgId sgTagName = none ∧
      findSecurityGroupID env sgId sgTagName = findSecurityGroupID env sgId "" ∧
      validateFlags myName "" "" = some .noTargetProvided ∧
      findSecurityGroupID env "" "" = ([], .error .noFlagGiven) := by
  refine ⟨?_, ?_, ?_, ?_⟩
  · simp [validateFlags, hm, hi]
  · simp [findSecurityGroupID, hi]
  · simp [validateFlags, hm]
  · simp [findSecurityGroupID]

/-- Witness for C3 (amended). -/
theorem claim3_witness :
    validateFlags "home" "sg-1" "web" = none ∧
      findSecurityGroupID ⟨.ok (), .ok []⟩ "sg-1" "web"
        = findSecurityGroupID ⟨.ok (), .ok []⟩ "sg-1" "" ∧
      validateFlags "home" "" "" = some .noTargetProvided ∧
      findSecurityGroupID ⟨.ok (), .ok []⟩ "" "" = ([], .error .noFlagGiven) :=
  claim3_both_flags_accepted "home" "sg-1" "web" ⟨.ok (), .ok []⟩
    (by decide) (by decide)

/-- The per-group reconciliation outcome in a fan-out run, each group
observed through its own client environment. -/
def reconcileOutcome (envs : String → Env) (ip d : String) (g : String) :
    Except SyncError Unit :=
  (syncSecurityGroupRule (envs g) g ip d).2

/-- The fan-out aggregate, characterized: the success count counts the
groups whose outcome succeeded, the failures are the ordered
(group ID, error) pairs of the groups whose outcome failed, and the two
together account for every listed group exactly once. -/
theorem runBatch_characterization (outcome : String → Except SyncError Unit)
    (ids : List String) :
    (runBatch outcome ids).successCount = ids.countP (fun g => isOk (outcome g)) ∧
      (runBatch outcome ids).failures = ids.filterMap (fun g =>
        match outcome g with
        | .ok _ => none
        | .error e => some (g, e)) ∧
      (runBatch outcome ids).successCount + (runBatch outcome ids).failures.length
        = ids.length := by
  induction ids with
  | nil => simp [runBatch]
  | cons g rest ih =>
    rcases h : outcome g with e | u
    · refine ⟨?_, ?_, ?_⟩
      · simp [runBatch, h, List.countP_cons, isOk, ih.1]
      · simp [runBatch, h, List.filterMap_cons, ih.2.1]
      · have h3 := ih.2.2
        simp only [runBatch, h, List.length_cons]
        omega
    · refine ⟨?_, ?_, ?_⟩
      · simp [runBatch, h, List.countP_cons, isOk, ih.1]
      · simp [runBatch, h, List.filterMap_cons, ih.2.1]
      · have h3 := ih.2.2
        simp only [runBatch, h, List.length_cons]
        omega

/-- Claim C4 (fan-out coordinator modelled from spec §4.3; the multi-group
variant's source is absent from src/): running one reconciliation per
resolved group ID — each against its own client environment, so no
group's outcome depends on a sibling's — collects exactly one outcome
per listed group (success count plus failure count equals the group
count), counts as successes exactly the groups whose reconciliation
succeeded, and aggregates the failures as the ordered list of
(group ID, error) pairs of exactly the groups whose reconciliation
failed. -/
theorem claim4_fanout_outcomes (envs : String → Env) (ip d : String)
    (ids : List String) :
    (runBatch (reconcileOutcome envs ip d) ids).successCount
        = ids.countP (fun g => isOk (reconcileOutcome envs ip d g)) ∧
      (runBatch (reconcileOutcome envs ip d) ids).failures
        = ids.filterMap (fun g =>
            match reconcileOutcome envs ip d g with
            | .ok _ => none
            | .error e => some (g, e)) ∧
      (runBatch (reconcileOutcome envs ip d) ids).successCount
          + (runBatch (reconcileOutcome envs ip d) ids).failures.length
        = ids.length :=
  runBatch_characterization (reconcileOutcome envs ip d) ids
